import Mathlib

/-!
# KeePassXC command line: `import` (src/cli/Import.cpp)

A shallow embedding of `Import::execute` and of the reconciliation engine it
drives.

* Part I embeds `Import::execute` line by line.  The collaborators it calls
  (`Utils::unlockDatabase`, `KdbxXmlReader::readDatabase`, `Merger::merge`,
  `Database::save`) are parameters, so every statement quantifies over every
  outcome they can have.  A run yields the exit status together with the
  ordered list of observable events (collaborator calls and stream writes).
* Part II models the merge engine (`core/Merger`) from its specification and
  characterises the Trees whose merge into themselves changes nothing.
-/

set_option autoImplicit false

namespace KeePassXC

/-! ## Part I: `Import::execute` -/

/-- Enumerators of `Group::MergeMode` that `Import.cpp` names (lines 69-76).
The enum is declared in `core/Group.h`; as enumerators of one C++ enum listed
in separate table rows they are distinct values. -/
inductive MergeMode where
  | Default
  | Synchronize
  | Duplicate
  | KeepLocal
  | KeepRemote
  deriving DecidableEq, Repr

/-- The stream descriptors of `cli/Utils.h` used by `Import.cpp`
(`Utils::STDOUT`, `Utils::STDERR`, `Utils::DEVNULL`). -/
inductive Descriptor where
  | STDOUT
  | STDERR
  | DEVNULL
  deriving DecidableEq, Repr

/-- The macro `EXIT_SUCCESS` of `<cstdlib>`. -/
def EXIT_SUCCESS : Int := 0

/-- The macro `EXIT_FAILURE` of `<cstdlib>`. -/
def EXIT_FAILURE : Int := 1

/-- What the `QCommandLineParser` reports once `parser.process(arguments)`
(line 61) has returned: the queries `Import::execute` makes of it. -/
structure CommandLine where
  /-- Value of `parser.positionalArguments()`. -/
  positionalArguments : List String
  /-- Value of `parser.value(mergeModeOption)`; empty when the option is absent. -/
  mergeMode : String
  /-- Value of `parser.isSet(Command::QuietOption)`. -/
  quiet : Bool
  /-- Value of `parser.isSet(Command::NoPasswordOption)`. -/
  noPassword : Bool
  /-- Value of `parser.value(Command::KeyFileOption)`. -/
  keyFile : String
  /-- Value of `parser.helpText()`. -/
  helpText : String

/-- Outcome of `KdbxXmlReader::readDatabase`: the database it returns and the
reader's error state (`hasError()`, `errorString()`). -/
structure XmlRead (Db : Type) where
  db : Db
  hasError : Bool
  errorString : String

/-- Outcome of `Database::save`: the returned flag and the message written
through the `QString*` out parameter. -/
structure SaveResult where
  ok : Bool
  errorMessage : String

/-- The collaborators called by `Import::execute`, over an arbitrary type
`Db` of databases.  `merge source target mode` stands for constructing
`Merger(source, target)`, forcing `mode` and calling `merge()`: it yields the
returned flag and the target database as the merger left it. -/
structure Collaborators (Db : Type) where
  unlockDatabase : String → Bool → String → Descriptor → Descriptor → Option Db
  readDatabase : String → XmlRead Db
  merge : Db → Db → MergeMode → Bool × Db
  save : Db → String → Bool → Bool → SaveResult

/-- Observable steps of a run of `Import::execute`, in program order. -/
inductive Event (Db : Type) where
  /-- Text sent by `execute` itself to a `TextStream`. -/
  | write (stream : Descriptor) (text : String)
  /-- Call of `Utils::unlockDatabase` with its five arguments, and whether it
  returned a database. -/
  | unlockDatabase (path : String) (isPasswordProtected : Bool) (keyFile : String)
      (outputDescriptor errorDescriptor : Descriptor) (unlocked : Bool)
  /-- Call of `reader.readDatabase(path)` and the value of `reader.hasError()`. -/
  | readDatabase (path : String) (hasError : Bool)
  /-- Construction `Merger merger(sourceDb, targetDb)`. -/
  | Merger (sourceDb targetDb : Db)
  /-- Call of `merger.setForcedMergeMode(mode)`. -/
  | setForcedMergeMode (mode : MergeMode)
  /-- Call of `merger.merge()` and the flag it returned. -/
  | merge (databaseChanged : Bool)
  /-- Call of `db->save(filePath, &errorMessage, atomic, backup)` on the
  database `db`, and the flag it returned. -/
  | save (db : Db) (filePath : String) (atomic backup : Bool) (saved : Bool)

/-- A finished run: the value `execute` returns and what it did. -/
structure Run (Db : Type) where
  status : Int
  events : List (Event Db)

/-- The `merge_modes` table of lines 71-77. -/
def merge_modes : List (String × MergeMode) :=
  [("", MergeMode.Default),
   ("synchronize", MergeMode.Synchronize),
   ("duplicate", MergeMode.Duplicate),
   ("keeplocal", MergeMode.KeepLocal),
   ("keepremote", MergeMode.KeepRemote)]

/-- Text of lines 82-83. -/
def validModesText : String :=
  "Valid merge modes are:\n  synchronize (default), duplicate, keeplocal, keepremote\n"

/-- Text of line 116. -/
def successText : String := "Successfully imported XML data.\n"

/-- Text of line 119. -/
def notModifiedText : String := "Database was not modified.\n"

/-- Text of line 101. -/
def xmlErrorText (errorString : String) : String :=
  "Error reading XML file:\n" ++ errorString

/-- Text of line 112. -/
def saveErrorText (errorMessage : String) : String :=
  "Unable to save database to file : " ++ errorMessage ++ "\n"

/-- The output descriptor handed to `unlockDatabase` (line 92). -/
def unlockOutput (parser : CommandLine) : Descriptor :=
  if parser.quiet then Descriptor.DEVNULL else Descriptor.STDOUT

/-- The body of `Import::execute`, lines 63-122, after `parser.process(arguments)`.
The pattern `[database, xml_file]` is the test `args.size() != 2` together
with `args.at(0)` and `args.at(1)`; looking the mode up in the table is
`merge_modes.contains` followed by `merge_modes[merge_mode_str]`, which
overwrites the initial value `Group::Synchronize` of line 69 on every path
that goes on. -/
def execute {Db : Type} (c : Collaborators Db) (parser : CommandLine) : Run Db :=
  match parser.positionalArguments with
  | [database, xml_file] =>
    match merge_modes.lookup parser.mergeMode with
    | none => ⟨EXIT_FAILURE, [Event.write Descriptor.STDERR validModesText]⟩
    | some merge_mode =>
      match c.unlockDatabase database (!parser.noPassword) parser.keyFile
          (unlockOutput parser) Descriptor.STDERR with
      | none =>
        ⟨EXIT_FAILURE,
          [Event.unlockDatabase database (!parser.noPassword) parser.keyFile
            (unlockOutput parser) Descriptor.STDERR false]⟩
      | some db1 =>
        let unlocked : Event Db :=
          Event.unlockDatabase database (!parser.noPassword) parser.keyFile
            (unlockOutput parser) Descriptor.STDERR true
        let reader := c.readDatabase xml_file
        if reader.hasError then
          ⟨EXIT_FAILURE,
            [unlocked, Event.readDatabase xml_file true,
             Event.write Descriptor.STDERR (xmlErrorText reader.errorString)]⟩
        else
          let db2 := reader.db
          let merged := c.merge db2 db1 merge_mode
          let databaseChanged := merged.1
          let steps : List (Event Db) :=
            [unlocked, Event.readDatabase xml_file false, Event.Merger db2 db1,
             Event.setForcedMergeMode merge_mode, Event.merge databaseChanged]
          if databaseChanged then
            let saved := c.save merged.2 database true false
            if !saved.ok then
              ⟨EXIT_FAILURE,
                steps ++ [Event.save merged.2 database true false false,
                  Event.write Descriptor.STDERR (saveErrorText saved.errorMessage)]⟩
            else if !parser.quiet then
              ⟨EXIT_SUCCESS,
                steps ++ [Event.save merged.2 database true false true,
                  Event.write Descriptor.STDOUT successText]⟩
            else
              ⟨EXIT_SUCCESS, steps ++ [Event.save merged.2 database true false true]⟩
          else if !parser.quiet then
            ⟨EXIT_SUCCESS, steps ++ [Event.write Descriptor.STDOUT notModifiedText]⟩
          else
            ⟨EXIT_SUCCESS, steps⟩
  | _ =>
    ⟨EXIT_FAILURE,
      [Event.write Descriptor.STDERR
        (parser.helpText.replace "[options]" "import [options]")]⟩

/-! ### Observations on a run -/

/-- The mode names the command documents as valid, plus the empty string. -/
def modeNames : List String :=
  ["", "synchronize", "duplicate", "keeplocal", "keepremote"]

/-- Texts written by `execute` to standard output, in order. -/
def stdoutWrites {Db : Type} : List (Event Db) → List String
  | [] => []
  | Event.write Descriptor.STDOUT text :: rest => text :: stdoutWrites rest
  | _ :: rest => stdoutWrites rest

/-- Texts written by `execute` to the error stream, in order. -/
def stderrWrites {Db : Type} : List (Event Db) → List String
  | [] => []
  | Event.write Descriptor.STDERR text :: rest => text :: stderrWrites rest
  | _ :: rest => stderrWrites rest

/-- The `save` calls of a run: the database saved, the path written and the
flag returned. -/
def saveCalls {Db : Type} : List (Event Db) → List (Db × String × Bool)
  | [] => []
  | Event.save db filePath _ _ saved :: rest => (db, filePath, saved) :: saveCalls rest
  | _ :: rest => saveCalls rest

/-- The `(source, target)` pairs over which a merger was constructed. -/
def mergerCalls {Db : Type} : List (Event Db) → List (Db × Db)
  | [] => []
  | Event.Merger sourceDb targetDb :: rest => (sourceDb, targetDb) :: mergerCalls rest
  | _ :: rest => mergerCalls rest

/-- The modes forced on a merger. -/
def forcedModes {Db : Type} : List (Event Db) → List MergeMode
  | [] => []
  | Event.setForcedMergeMode mode :: rest => mode :: forcedModes rest
  | _ :: rest => forcedModes rest

/-- The flags returned by the `merge()` calls of a run. -/
def mergeResults {Db : Type} : List (Event Db) → List Bool
  | [] => []
  | Event.merge databaseChanged :: rest => databaseChanged :: mergeResults rest
  | _ :: rest => mergeResults rest

/-- The paths on which `unlockDatabase` was called. -/
def unlockCalls {Db : Type} : List (Event Db) → List String
  | [] => []
  | Event.unlockDatabase path _ _ _ _ _ :: rest => path :: unlockCalls rest
  | _ :: rest => unlockCalls rest

/-- The paths handed to the XML reader. -/
def readCalls {Db : Type} : List (Event Db) → List String
  | [] => []
  | Event.readDatabase path _ :: rest => path :: readCalls rest
  | _ :: rest => readCalls rest

/-- The failure conditions of the command: wrong number of positional
arguments; unrecognised mode name; unlocking yields no database; the XML
reader reports an error; merge reported a change and the save fails. -/
def importFails {Db : Type} (c : Collaborators Db) (p : CommandLine) : Prop :=
  p.positionalArguments.length ≠ 2
  ∨ p.mergeMode ∉ modeNames
  ∨ (∃ a0 a1, p.positionalArguments = [a0, a1] ∧
      c.unlockDatabase a0 (!p.noPassword) p.keyFile (unlockOutput p) Descriptor.STDERR = none)
  ∨ (∃ a0 a1, p.positionalArguments = [a0, a1] ∧ (c.readDatabase a1).hasError = true)
  ∨ (∃ a0 a1 mode db1, p.positionalArguments = [a0, a1] ∧
      merge_modes.lookup p.mergeMode = some mode ∧
      c.unlockDatabase a0 (!p.noPassword) p.keyFile (unlockOutput p) Descriptor.STDERR
        = some db1 ∧
      (c.merge (c.readDatabase a1).db db1 mode).1 = true ∧
      (c.save (c.merge (c.readDatabase a1).db db1 mode).2 a0 true false).ok = false)

/-- Collaborators whose outcomes are fixed in advance, over databases that
are plain numbers: the unlocked database is `1`, the parsed XML database is
`2`, and the merger leaves `target + source` in the target. -/
def scripted (unlocked hasError changed saved : Bool) : Collaborators Nat where
  unlockDatabase := fun _ _ _ _ _ => if unlocked then some 1 else none
  readDatabase := fun _ => ⟨2, hasError, "malformed"⟩
  merge := fun source target _ => (changed, target + source)
  save := fun _ _ _ _ => ⟨saved, "disk full"⟩

/-- The command line `import [--merge-mode mode] [-q] db.kdbx data.xml`. -/
def commandLine (mode : String) (quiet : Bool) : CommandLine :=
  ⟨["db.kdbx", "data.xml"], mode, quiet, false, "", "Usage: keepassxc-cli [options]"⟩

/-- The command line `import same.xml same.xml`: both positional arguments
name one path. -/
def samePathCommandLine : CommandLine :=
  ⟨["same.xml", "same.xml"], "", false, false, "", "Usage: keepassxc-cli [options]"⟩

/-- The five events every run that reaches `merge()` starts with. -/
def mergeSteps {Db : Type} (c : Collaborators Db) (p : CommandLine)
    (a0 a1 : String) (mode : MergeMode) (db1 : Db) : List (Event Db) :=
  [Event.unlockDatabase a0 (!p.noPassword) p.keyFile (unlockOutput p) Descriptor.STDERR true,
   Event.readDatabase a1 false,
   Event.Merger (c.readDatabase a1).db db1,
   Event.setForcedMergeMode mode,
   Event.merge (c.merge (c.readDatabase a1).db db1 mode).1]

/-! ## Part II: the reconciliation engine (`core/Merger`), modelled from the specification -/

namespace Reconciler

/-- Modelled from the spec: the Identifier of section 3, a unique immutable
token; `core/Merger` and the tree classes are not among the sources. -/
abbrev Identifier := Nat

/-- Modelled from the spec: the timestamps of section 3 (creation,
last-modification, deletion time), ordered. -/
abbrev Timestamp := Nat

/-- Modelled from the spec: one entry of a Record's attribute mapping
(name to value, values may be marked sensitive). -/
structure Attribute where
  name : String
  value : String
  sensitive : Bool
  deriving DecidableEq, Repr

/-- Modelled from the spec: a prior snapshot in a Record's history, a full
copy of the record's attributes plus the timestamp it was superseded. -/
structure Snapshot where
  attributes : List Attribute
  timestamp : Timestamp
  deriving DecidableEq, Repr

/-- Modelled from the spec: the Record of section 3 (the entry class is not
among the sources). -/
structure Record where
  identifier : Identifier
  attributes : List Attribute
  icon : Nat
  creation : Timestamp
  lastModification : Timestamp
  history : List Snapshot
  lastAccess : Timestamp
  deriving DecidableEq, Repr

/-- Modelled from the spec: the Container of section 3 (the group class is
not among the sources). It owns its child
Containers and its Records; the parent back-link is not stored but looked up
by identifier (`parentOf`), as the design notes of section 9 propose. -/
inductive Container where
  | mk (identifier : Identifier) (name : String) (children : List Container)
      (records : List Record) (lastModification : Timestamp) (recycle : Bool)

/-- Modelled from the spec: the Tree of section 3 (the database class is not
among the sources), a root Container and the deletion ledger, a mapping from
identifier to time of deletion. -/
structure Tree where
  root : Container
  ledger : Identifier → Option Timestamp

/-- Modelled from the spec: the kinds of ChangeSet operation of section 3. -/
inductive ChangeKind where
  | added
  | deleted
  | moved
  | updated
  | duplicated
  deriving DecidableEq, Repr

/-- Modelled from the spec: one ChangeSet operation (kind, identifier,
timestamp). -/
structure Change where
  kind : ChangeKind
  identifier : Identifier
  timestamp : Timestamp
  deriving DecidableEq, Repr

/-- Modelled from the spec: the ChangeSet, an ordered sequence of operations. -/
abbrev ChangeSet := List Change

/-- Modelled from the spec: the closed enumeration of policies of sections
4.1 and 9. -/
inductive Policy where
  | Synchronize
  | Duplicate
  | KeepLocal
  | KeepRemote
  deriving DecidableEq, Repr

/-- Modelled from the spec: the error of section 4.1, raised when an
identifier is duplicated within a single Tree. -/
inductive MergeError where
  | StructureConflict
  deriving DecidableEq, Repr

/-- Modelled from the spec: what section 3 and 9 leave to configuration: the
history cap, the content hash, and the generator of fresh identifiers (given
the identifiers in use). -/
structure Config where
  historyCap : Nat
  contentHash : List Attribute → Nat
  freshIdentifier : List Identifier → Identifier

/-- Modelled from the spec: outcome of `merge`: the target as mutated, the
ChangeSet emitted, and the changed flag. -/
structure MergeResult where
  target : Tree
  changes : ChangeSet
  changed : Bool

namespace Container

/-- Modelled from the spec: field `identifier` of a Container. -/
def identifier : Container → Identifier
  | mk i _ _ _ _ _ => i

/-- Modelled from the spec: field `name` of a Container. -/
def name : Container → String
  | mk _ n _ _ _ _ => n

/-- Modelled from the spec: the ordered sequence of child Containers. -/
def children : Container → List Container
  | mk _ _ cs _ _ _ => cs

/-- Modelled from the spec: the Records directly held. -/
def records : Container → List Record
  | mk _ _ _ rs _ _ => rs

/-- Modelled from the spec: last-modification timestamp of a Container. -/
def lastModification : Container → Timestamp
  | mk _ _ _ _ t _ => t

/-- Modelled from the spec: the flag marking a recycle Container. -/
def recycle : Container → Bool
  | mk _ _ _ _ _ r => r

end Container

mutual
/-- Modelled from the spec: the Containers of a subtree in depth-first
order, the order in which the Reconciler walks a Tree. -/
def Container.subtrees : Container → List Container
  | Container.mk i n cs rs t r => Container.mk i n cs rs t r :: subtreesList cs
/-- Modelled from the spec: depth-first walk of a sequence of Containers. -/
def subtreesList : List Container → List Container
  | [] => []
  | c :: cs => c.subtrees ++ subtreesList cs
end

mutual
/-- Modelled from the spec: in-place mutation of a Tree, as a rebuild that
applies `f` to every Container, children first. -/
def Container.rebuild (f : Container → Container) : Container → Container
  | Container.mk i n cs rs t r => f (Container.mk i n (rebuildList f cs) rs t r)
/-- Modelled from the spec: `Container.rebuild` over a sequence of Containers. -/
def rebuildList (f : Container → Container) : List Container → List Container
  | [] => []
  | c :: cs => c.rebuild f :: rebuildList f cs
end

/-- Modelled from the spec: lookup of a Container by identifier. -/
def findContainer (root : Container) (i : Identifier) : Option Container :=
  root.subtrees.find? (fun c => c.identifier == i)

/-- Modelled from the spec: the parent back-link, resolved by identifier:
the Container that holds `i` among its children. -/
def parentOf (root : Container) (i : Identifier) : Option Identifier :=
  (root.subtrees.find? (fun c => c.children.any (fun k => k.identifier == i))).map
    Container.identifier

/-- Modelled from the spec: every Record of a Tree paired with the
identifier of the Container that holds it, in walk order. -/
def allRecords (root : Container) : List (Identifier × Record) :=
  root.subtrees.flatMap (fun c => c.records.map (fun r => (c.identifier, r)))

/-- Modelled from the spec: lookup of a Record by identifier. -/
def findRecord (root : Container) (i : Identifier) : Option (Identifier × Record) :=
  (allRecords root).find? (fun e => e.2.identifier == i)

/-- Modelled from the spec: all identifiers of a Tree, Containers then
Records. -/
def identifiers (root : Container) : List Identifier :=
  root.subtrees.map Container.identifier ++ (allRecords root).map (fun e => e.2.identifier)

/-- Modelled from the spec: the invariant of section 3 validated by the
engine before any mutation: an identifier appears in exactly one place. -/
def uniqueIdentifiers (t : Tree) : Prop :=
  (identifiers t.root).Nodup

instance (t : Tree) : Decidable (uniqueIdentifiers t) :=
  inferInstanceAs (Decidable (identifiers t.root).Nodup)

/-- Modelled from the spec: a Container without its children and Records,
the node cloned into target when the walk reaches a source-only Container. -/
def shell (c : Container) : Container :=
  Container.mk c.identifier c.name [] [] c.lastModification c.recycle

/-- Modelled from the spec: insert `c` as last child of Container `parent`. -/
def insertContainer (parent : Identifier) (c : Container) (root : Container) : Container :=
  root.rebuild (fun n =>
    if n.identifier = parent then
      Container.mk n.identifier n.name (n.children ++ [c]) n.records n.lastModification n.recycle
    else n)

/-- Modelled from the spec: delete the Container `i` (with its subtree)
from below the root. -/
def removeContainer (i : Identifier) (root : Container) : Container :=
  root.rebuild (fun n =>
    Container.mk n.identifier n.name (n.children.filter (fun k => k.identifier != i))
      n.records n.lastModification n.recycle)

/-- Modelled from the spec: give Container `i` the name and
last-modification timestamp of the winning side. -/
def renameContainer (i : Identifier) (name : String) (time : Timestamp)
    (root : Container) : Container :=
  root.rebuild (fun n =>
    if n.identifier = i then Container.mk n.identifier name n.children n.records time n.recycle
    else n)

/-- Modelled from the spec: move Container `i` below Container `parent`. The
root, and a move below the moved subtree itself, are left in place. -/
def moveContainer (i parent : Identifier) (root : Container) : Container :=
  match findContainer root i with
  | none => root
  | some c =>
    if root.identifier = i ∨ parent ∈ c.subtrees.map Container.identifier then root
    else insertContainer parent c (removeContainer i root)

/-- Modelled from the spec: insert Record `r` into Container `holder`. -/
def insertRecord (holder : Identifier) (r : Record) (root : Container) : Container :=
  root.rebuild (fun n =>
    if n.identifier = holder then
      Container.mk n.identifier n.name n.children (n.records ++ [r]) n.lastModification n.recycle
    else n)

/-- Modelled from the spec: delete the Record `i`. -/
def removeRecord (i : Identifier) (root : Container) : Container :=
  root.rebuild (fun n =>
    Container.mk n.identifier n.name n.children
      (n.records.filter (fun r => r.identifier != i)) n.lastModification n.recycle)

/-- Modelled from the spec: overwrite the Record that has the identifier of
`r` by `r`. -/
def replaceRecord (r : Record) (root : Container) : Container :=
  root.rebuild (fun n =>
    Container.mk n.identifier n.name n.children
      (n.records.map (fun x => if x.identifier = r.identifier then r else x))
      n.lastModification n.recycle)

/-- Modelled from the spec: which side a policy selects on a conflict
(section 4.1): `Synchronize` the later last-modification timestamp, target on
a tie; `KeepLocal` and `Duplicate` keep target; `KeepRemote` takes source.
The secondary order by identifier never decides here, the two versions
compared carrying the same identifier. -/
def sourceWins : Policy → Timestamp → Timestamp → Bool
  | Policy.Synchronize, sourceTime, targetTime => decide (targetTime < sourceTime)
  | Policy.Duplicate, _, _ => false
  | Policy.KeepLocal, _, _ => false
  | Policy.KeepRemote, _, _ => true

/-- Modelled from the spec: the deletion wins (no resurrection) when the
ledger records the identifier as deleted at a time at or after the other
side's last-modification timestamp. -/
def deletionWins (ledger : Identifier → Option Timestamp) (i : Identifier)
    (lastModification : Timestamp) : Bool :=
  match ledger i with
  | some deleted => decide (lastModification ≤ deleted)
  | none => false

/-- Modelled from the spec: the key of a history entry in the set union of
section 4.2, (timestamp, content hash). -/
def sameKey (cfg : Config) (a b : Snapshot) : Bool :=
  a.timestamp == b.timestamp && cfg.contentHash a.attributes == cfg.contentHash b.attributes

/-- Modelled from the spec: add an entry to a keyed set of history entries. -/
def insertKeyed (cfg : Config) (acc : List Snapshot) (e : Snapshot) : List Snapshot :=
  if acc.any (sameKey cfg e) then acc else acc ++ [e]

/-- Modelled from the spec: set union of two histories keyed by (timestamp,
content hash). -/
def unionKeyed (cfg : Config) (a b : List Snapshot) : List Snapshot :=
  (a ++ b).foldl (insertKeyed cfg) []

/-- Modelled from the spec: the history merge of section 4.2: keyed set
union, sorted ascending by timestamp, truncated to the cap by discarding the
oldest entries first. -/
def mergeHistory (cfg : Config) (source target : List Snapshot) : List Snapshot :=
  let sorted := (unionKeyed cfg target source).insertionSort
    (fun a b => a.timestamp ≤ b.timestamp)
  sorted.drop (sorted.length - cfg.historyCap)

/-- Modelled from the spec: the live version of a Record as a history entry. -/
def snapshotOf (r : Record) : Snapshot :=
  ⟨r.attributes, r.lastModification⟩

/-- Modelled from the spec: whether two versions of a Record conflict: their
content hashes differ. -/
def contentDiffers (cfg : Config) (s t : Record) : Bool :=
  cfg.contentHash s.attributes != cfg.contentHash t.attributes

/-- Modelled from the spec: content reconciliation (step 2) and history merge
(step 5) of a Record present in both trees; yields the target Record after
the merge. On a conflict the policy picks the live version; the history merge
runs whichever side wins, and when the policy discards the source's live
version that version is appended to the merged history. -/
def reconcileRecord (cfg : Config) (policy : Policy) (s t : Record) : Record :=
  let differ := contentDiffers cfg s t
  let win := differ && sourceWins policy s.lastModification t.lastModification
  let loser : List Snapshot :=
    if differ && !win && policy != Policy.Duplicate then [snapshotOf s] else []
  let history := mergeHistory cfg (s.history ++ loser) t.history
  if win then
    { t with attributes := s.attributes, icon := s.icon,
             lastModification := s.lastModification, history := history }
  else
    { t with history := history }

/-- Modelled from the spec: the Reconciler's working state, the target being
mutated and the ChangeSet emitted so far. -/
structure State where
  root : Container
  changes : ChangeSet

/-- Modelled from the spec: structural reconciliation (step 1) of one source
Container. Absent from target: the deletion wins if target's ledger says so,
otherwise the Container is cloned under the corresponding parent, resolved by
identifier, falling back to root. Present in target with differing name or
parent: renamed or moved if the policy selects the source; a move is decided
only where it can be carried out (the new parent exists in target, the
Container is not the root, and the new parent is not inside the moved
subtree). -/
def stepContainer (policy : Policy) (source : Tree)
    (targetLedger : Identifier → Option Timestamp) (st : State) (s : Container) : State :=
  match findContainer st.root s.identifier with
  | none =>
    if deletionWins targetLedger s.identifier s.lastModification then st
    else
      let parent : Identifier :=
        match parentOf source.root s.identifier with
        | some p => if (findContainer st.root p).isSome then p else st.root.identifier
        | none => st.root.identifier
      ⟨insertContainer parent (shell s) st.root,
        st.changes ++ [⟨ChangeKind.added, s.identifier, s.lastModification⟩]⟩
  | some t =>
    let sourceParent := parentOf source.root s.identifier
    let targetParent := parentOf st.root s.identifier
    let renamed : Bool := s.name != t.name
    let moved : Bool :=
      match sourceParent with
      | some p =>
        sourceParent != targetParent && (findContainer st.root p).isSome
          && st.root.identifier != s.identifier
          && !(t.subtrees.map Container.identifier).contains p
      | none => false
    if (renamed || moved) && sourceWins policy s.lastModification t.lastModification then
      let root1 :=
        if renamed then renameContainer s.identifier s.name s.lastModification st.root
        else st.root
      let root2 :=
        match sourceParent with
        | some p => if moved then moveContainer s.identifier p root1 else root1
        | none => root1
      ⟨root2, st.changes ++
        [⟨if moved then ChangeKind.moved else ChangeKind.updated, s.identifier,
          s.lastModification⟩]⟩
    else st

/-- Modelled from the spec: under `KeepRemote`, a target-only Container whose
identifier appears in source's deletion ledger is deleted from target, with a
`deleted` ChangeSet entry. -/
def stepContainerDeletion (source : Tree) (st : State) (t : Container) : State :=
  match source.ledger t.identifier with
  | some deleted =>
    if (findContainer source.root t.identifier).isNone
        && (findContainer st.root t.identifier).isSome
        && t.identifier != st.root.identifier then
      ⟨removeContainer t.identifier st.root,
        st.changes ++ [⟨ChangeKind.deleted, t.identifier, deleted⟩]⟩
    else st
  | none => st

/-- Modelled from the spec: steps 2, 3 and 5 for one source Record. Absent
from target (step 3): the deletion wins if target's ledger says so, otherwise
the Record is added to its Container when that Container is matched in
target. Present in target: content reconciliation and history merge; each
resolution that alters target emits `updated`; under `Duplicate` a conflict
also inserts the source's version under a fresh identifier in the same
Container and emits `duplicated`. -/
def stepRecord (cfg : Config) (policy : Policy)
    (targetLedger : Identifier → Option Timestamp) (st : State)
    (entry : Identifier × Record) : State :=
  match findRecord st.root entry.2.identifier with
  | none =>
    if deletionWins targetLedger entry.2.identifier entry.2.lastModification then st
    else if (findContainer st.root entry.1).isSome then
      ⟨insertRecord entry.1 entry.2 st.root,
        st.changes ++ [⟨ChangeKind.added, entry.2.identifier, entry.2.lastModification⟩]⟩
    else st
  | some (holder, t) =>
    let merged := reconcileRecord cfg policy entry.2 t
    let st1 : State :=
      if merged = t then st
      else ⟨replaceRecord merged st.root,
        st.changes ++ [⟨ChangeKind.updated, t.identifier, merged.lastModification⟩]⟩
    if policy = Policy.Duplicate ∧ contentDiffers cfg entry.2 t = true then
      let fresh := cfg.freshIdentifier (identifiers st1.root)
      ⟨insertRecord holder { entry.2 with identifier := fresh } st1.root,
        st1.changes ++ [⟨ChangeKind.duplicated, fresh, entry.2.lastModification⟩]⟩
    else st1

/-- Modelled from the spec: step 3 mirroring the `KeepRemote` deletion of
step 1 at Record granularity. -/
def stepRecordDeletion (source : Tree) (st : State) (entry : Identifier × Record) : State :=
  match source.ledger entry.2.identifier with
  | some deleted =>
    if (findRecord source.root entry.2.identifier).isNone
        && (findRecord st.root entry.2.identifier).isSome then
      ⟨removeRecord entry.2.identifier st.root,
        st.changes ++ [⟨ChangeKind.deleted, entry.2.identifier, deleted⟩]⟩
    else st
  | none => st

/-- Modelled from the spec: deletion ledger merge (step 4): the union of both
ledgers keyed by identifier, keeping the later timestamp for identifiers
present in both. -/
def unionLedger (source target : Identifier → Option Timestamp) :
    Identifier → Option Timestamp :=
  fun i =>
    match source i, target i with
    | some a, some b => some (max a b)
    | some a, none => some a
    | none, b => b

/-- Modelled from the spec: step 1 over the whole source Tree: the walk of
the source Containers in depth-first order, then, under `KeepRemote`, the
deletion of target-only Containers that source's ledger lists. -/
def reconcileStructure (policy : Policy) (source target : Tree) : State :=
  let st1 := source.root.subtrees.foldl (stepContainer policy source target.ledger)
    ⟨target.root, []⟩
  if policy = Policy.KeepRemote then
    st1.root.subtrees.foldl (stepContainerDeletion source) st1
  else st1

/-- Modelled from the spec: steps 2, 3 and 5 over the whole source Tree: the
walk of the source Records, then, under `KeepRemote`, the deletion of
target-only Records that source's ledger lists. -/
def reconcileRecords (cfg : Config) (policy : Policy) (source target : Tree)
    (st : State) : State :=
  let st3 := (allRecords source.root).foldl (stepRecord cfg policy target.ledger) st
  if policy = Policy.KeepRemote then
    (allRecords st3.root).foldl (stepRecordDeletion source) st3
  else st3

/-- Modelled from the spec: `merge(source, target, policy)` of section 4.1,
standing for `Merger::merge` of `core/Merger`, which is not among the sources.
Both trees are validated for identifier uniqueness before any mutation
(`StructureConflict` otherwise); then structural reconciliation, record
reconciliation with history merge, and the ledger union; `changed` is true
iff a mutation was emitted. -/
def merge (cfg : Config) (source target : Tree) (policy : Policy) :
    Except MergeError MergeResult :=
  if uniqueIdentifiers source ∧ uniqueIdentifiers target then
    let st := reconcileRecords cfg policy source target
      (reconcileStructure policy source target)
    Except.ok ⟨⟨st.root, unionLedger source.ledger target.ledger⟩, st.changes,
      !st.changes.isEmpty⟩
  else
    Except.error MergeError.StructureConflict

end Reconciler

namespace Reconciler

/-- Modelled from the spec: the shape of a history that sections 3 and 4.2
describe: a set keyed by (timestamp, content hash), so no two entries share a
key; sorted ascending by timestamp; no longer than the cap. -/
def historyInvariant (cfg : Config) (history : List Snapshot) : Prop :=
  history.Pairwise (fun (a b : Snapshot) => sameKey cfg a b = false) ∧
    history.Sorted (fun (a b : Snapshot) => a.timestamp ≤ b.timestamp) ∧
    history.length ≤ cfg.historyCap

instance (cfg : Config) (history : List Snapshot) : Decidable (historyInvariant cfg history) :=
  inferInstanceAs (Decidable
    (history.Pairwise (fun (a b : Snapshot) => sameKey cfg a b = false) ∧
      history.Sorted (fun (a b : Snapshot) => a.timestamp ≤ b.timestamp) ∧
      history.length ≤ cfg.historyCap))

/-- Modelled from the spec: a Tree as section 3 defines it: identifiers
unique within the Tree, and the history of every Record a keyed set sorted
by timestamp within the cap. -/
def WellFormed (cfg : Config) (t : Tree) : Prop :=
  uniqueIdentifiers t ∧ ∀ e ∈ allRecords t.root, historyInvariant cfg e.2.history

instance (cfg : Config) (t : Tree) : Decidable (WellFormed cfg t) :=
  inferInstanceAs (Decidable
    (uniqueIdentifiers t ∧ ∀ e ∈ allRecords t.root, historyInvariant cfg e.2.history))

/-- A hash of one text: its characters folded into a number. -/
def textHash (seed : Nat) (text : String) : Nat :=
  text.data.foldl (fun h c => 131 * h + c.toNat + 1) seed

/-- A configuration for concrete runs: at most ten history entries, a hash
that folds every name, value and sensitivity mark of the attributes in order,
and the successor of the greatest identifier in use as fresh identifier. -/
def sampleConfig : Config where
  historyCap := 10
  contentHash := fun attributes =>
    attributes.foldl
      (fun h a => 2 * textHash (textHash (131 * h + 7) a.name) a.value
        + (if a.sensitive then 1 else 0)) 1
  freshIdentifier := fun used => used.foldl max 0 + 1

/-- The Record of the scenario of section 8: identifier 1, one attribute
with the given value, modified at the given time. -/
def sampleRecord (value : String) (modified : Timestamp) : Record :=
  ⟨1, [⟨"Password", value, true⟩], 0, 1, modified, [], modified⟩

/-- A Tree whose root (identifier 100) holds just the given Record. -/
def singleRecordTree (r : Record) : Tree :=
  ⟨Container.mk 100 "Root" [] [r] 1 false, fun _ => none⟩

/-- Modelled from the spec: what a caller observes of a merge: the Records
of the target with the Containers that hold them, the ChangeSet and the
changed flag; nothing when the merge failed. -/
def observe : Except MergeError MergeResult →
    Option (List (Identifier × Record) × ChangeSet × Bool)
  | Except.ok r => some (allRecords r.target.root, r.changes, r.changed)
  | Except.error _ => none

/-- Modelled from the spec: whether a merge succeeded and left a target of
the shape of section 3. -/
def targetWellFormed (cfg : Config) : Except MergeError MergeResult → Bool
  | Except.ok r => decide (WellFormed cfg r.target)
  | Except.error _ => false

/-- The scenario Record with one history entry of the given value, superseded
at time 1. -/
def recordWithHistory (value old : String) (modified : Timestamp) : Record :=
  { sampleRecord value modified with history := [⟨[⟨"Password", old, true⟩], 1⟩] }

/-- A Tree with nested Containers, a recycle Container, Records with
history, and one ledger entry. -/
def sampleTree : Tree :=
  ⟨Container.mk 100 "Root"
    [Container.mk 101 "Mail"
      [Container.mk 102 "Work" []
        [⟨3, [⟨"UserName", "ann", false⟩], 0, 0, 4,
          [⟨[], 1⟩, ⟨[⟨"UserName", "a", false⟩], 2⟩], 0⟩] 3 false]
      [sampleRecord "q" 3] 2 false,
     Container.mk 103 "Recycle Bin" [] [] 1 true]
    [] 1 false,
   fun i => if i = 55 then some 9 else none⟩

end Reconciler

/-! ### Lemmas on the mode table -/

theorem lookup_merge_modes (s : String) :
    merge_modes.lookup s =
      if s = "" then some MergeMode.Default
      else if s = "synchronize" then some MergeMode.Synchronize
      else if s = "duplicate" then some MergeMode.Duplicate
      else if s = "keeplocal" then some MergeMode.KeepLocal
      else if s = "keepremote" then some MergeMode.KeepRemote
      else none := by
  simp only [merge_modes, List.lookup]
  by_cases h1 : s = ""
  · subst h1; rfl
  by_cases h2 : s = "synchronize"
  · subst h2; rfl
  by_cases h3 : s = "duplicate"
  · subst h3; rfl
  by_cases h4 : s = "keeplocal"
  · subst h4; rfl
  by_cases h5 : s = "keepremote"
  · subst h5; rfl
  have e1 : (s == "") = false := by simpa using h1
  have e2 : (s == "synchronize") = false := by simpa using h2
  have e3 : (s == "duplicate") = false := by simpa using h3
  have e4 : (s == "keeplocal") = false := by simpa using h4
  have e5 : (s == "keepremote") = false := by simpa using h5
  simp [e1, e2, e3, e4, e5, h1, h2, h3, h4, h5]

theorem lookup_merge_modes_none_iff (s : String) :
    merge_modes.lookup s = none ↔ s ∉ modeNames := by
  rw [lookup_merge_modes]
  simp only [modeNames, List.mem_cons, List.mem_singleton, List.not_mem_nil, or_false]
  by_cases h1 : s = "" <;> by_cases h2 : s = "synchronize" <;>
    by_cases h3 : s = "duplicate" <;> by_cases h4 : s = "keeplocal" <;>
    by_cases h5 : s = "keepremote" <;> simp [h1, h2, h3, h4, h5]

/-! ### The paths through `execute` -/

theorem execute_cases {Db : Type} (c : Collaborators Db) (p : CommandLine) :
    (p.positionalArguments.length ≠ 2 ∧
      execute c p = ⟨EXIT_FAILURE,
        [Event.write Descriptor.STDERR (p.helpText.replace "[options]" "import [options]")]⟩)
    ∨ (∃ a0 a1, p.positionalArguments = [a0, a1] ∧ merge_modes.lookup p.mergeMode = none ∧
        execute c p = ⟨EXIT_FAILURE, [Event.write Descriptor.STDERR validModesText]⟩)
    ∨ (∃ a0 a1 mode, p.positionalArguments = [a0, a1] ∧
        merge_modes.lookup p.mergeMode = some mode ∧
        c.unlockDatabase a0 (!p.noPassword) p.keyFile (unlockOutput p) Descriptor.STDERR = none ∧
        execute c p = ⟨EXIT_FAILURE,
          [Event.unlockDatabase a0 (!p.noPassword) p.keyFile (unlockOutput p)
            Descriptor.STDERR false]⟩)
    ∨ (∃ a0 a1 mode db1, p.positionalArguments = [a0, a1] ∧
        merge_modes.lookup p.mergeMode = some mode ∧
        c.unlockDatabase a0 (!p.noPassword) p.keyFile (unlockOutput p) Descriptor.STDERR
          = some db1 ∧
        (c.readDatabase a1).hasError = true ∧
        execute c p = ⟨EXIT_FAILURE,
          [Event.unlockDatabase a0 (!p.noPassword) p.keyFile (unlockOutput p)
            Descriptor.STDERR true,
           Event.readDatabase a1 true,
           Event.write Descriptor.STDERR (xmlErrorText (c.readDatabase a1).errorString)]⟩)
    ∨ (∃ a0 a1 mode db1, p.positionalArguments = [a0, a1] ∧
        merge_modes.lookup p.mergeMode = some mode ∧
        c.unlockDatabase a0 (!p.noPassword) p.keyFile (unlockOutput p) Descriptor.STDERR
          = some db1 ∧
        (c.readDatabase a1).hasError = false ∧
        (c.merge (c.readDatabase a1).db db1 mode).1 = true ∧
        (c.save (c.merge (c.readDatabase a1).db db1 mode).2 a0 true false).ok = false ∧
        execute c p = ⟨EXIT_FAILURE,
          mergeSteps c p a0 a1 mode db1 ++
            [Event.save (c.merge (c.readDatabase a1).db db1 mode).2 a0 true false false,
             Event.write Descriptor.STDERR (saveErrorText
               (c.save (c.merge (c.readDatabase a1).db db1 mode).2 a0 true false).errorMessage)]⟩)
    ∨ (∃ a0 a1 mode db1, p.positionalArguments = [a0, a1] ∧
        merge_modes.lookup p.mergeMode = some mode ∧
        c.unlockDatabase a0 (!p.noPassword) p.keyFile (unlockOutput p) Descriptor.STDERR
          = some db1 ∧
        (c.readDatabase a1).hasError = false ∧
        (c.merge (c.readDatabase a1).db db1 mode).1 = true ∧
        (c.save (c.merge (c.readDatabase a1).db db1 mode).2 a0 true false).ok = true ∧
        execute c p = ⟨EXIT_SUCCESS,
          mergeSteps c p a0 a1 mode db1 ++
            Event.save (c.merge (c.readDatabase a1).db db1 mode).2 a0 true false true ::
              (if p.quiet then [] else [Event.write Descriptor.STDOUT successText])⟩)
    ∨ (∃ a0 a1 mode db1, p.positionalArguments = [a0, a1] ∧
        merge_modes.lookup p.mergeMode = some mode ∧
        c.unlockDatabase a0 (!p.noPassword) p.keyFile (unlockOutput p) Descriptor.STDERR
          = some db1 ∧
        (c.readDatabase a1).hasError = false ∧
        (c.merge (c.readDatabase a1).db db1 mode).1 = false ∧
        execute c p = ⟨EXIT_SUCCESS,
          mergeSteps c p a0 a1 mode db1 ++
            (if p.quiet then [] else [Event.write Descriptor.STDOUT notModifiedText])⟩) := by
  unfold execute
  split
  · rename_i a0 a1 hargs
    right
    split
    · rename_i hlook
      exact Or.inl ⟨a0, a1, hargs, hlook, rfl⟩
    · rename_i mode hlook
      right
      split
      · rename_i hun
        exact Or.inl ⟨a0, a1, mode, hargs, hlook, hun, rfl⟩
      · rename_i db1 hun
        right
        by_cases herr : (c.readDatabase a1).hasError = true
        · exact Or.inl ⟨a0, a1, mode, db1, hargs, hlook, hun, herr, by simp [herr]⟩
        · right
          have herr2 : (c.readDatabase a1).hasError = false := by simpa using herr
          by_cases hch : (c.merge (c.readDatabase a1).db db1 mode).1 = true
          · by_cases hok : (c.save (c.merge (c.readDatabase a1).db db1 mode).2 a0 true false).ok
                = true
            · right; left
              refine ⟨a0, a1, mode, db1, hargs, hlook, hun, herr2, hch, hok, ?_⟩
              cases hq : p.quiet <;> simp [herr2, hch, hok, hq, mergeSteps]
            · have hok2 : (c.save (c.merge (c.readDatabase a1).db db1 mode).2 a0 true false).ok
                  = false := by simpa using hok
              left
              exact ⟨a0, a1, mode, db1, hargs, hlook, hun, herr2, hch, hok2,
                by simp [herr2, hch, hok2, mergeSteps]⟩
          · have hch2 : (c.merge (c.readDatabase a1).db db1 mode).1 = false := by simpa using hch
            right; right
            refine ⟨a0, a1, mode, db1, hargs, hlook, hun, herr2, hch2, ?_⟩
            cases hq : p.quiet <;> simp [herr2, hch2, hq, mergeSteps]
  · rename_i hne
    left
    refine ⟨?_, rfl⟩
    intro hlen
    match hp : p.positionalArguments, hlen with
    | [a0, a1], _ => exact hne a0 a1 hp

/-! ### Claims on `Import::execute` -/

/-- C1. For every command line and every outcome of the collaborators,
`execute` returns `EXIT_FAILURE` (a non-zero status) exactly when one of the
five failure conditions holds, and `EXIT_SUCCESS` (zero) exactly when none
does. -/
theorem execute_status_iff {Db : Type} (c : Collaborators Db) (p : CommandLine) :
    ((execute c p).status = EXIT_FAILURE ↔ importFails c p) ∧
    ((execute c p).status = EXIT_SUCCESS ↔ ¬ importFails c p) ∧
    EXIT_FAILURE ≠ 0 ∧ EXIT_SUCCESS = 0 := by
  have hFS : EXIT_FAILURE ≠ EXIT_SUCCESS := by decide
  have key : ((execute c p).status = EXIT_FAILURE ∧ importFails c p) ∨
      ((execute c p).status = EXIT_SUCCESS ∧ ¬ importFails c p) := by
    rcases execute_cases c p with h | h | h | h | h | h | h
    · obtain ⟨hlen, hrun⟩ := h
      exact Or.inl ⟨by rw [hrun], Or.inl hlen⟩
    · obtain ⟨a0, a1, hargs, hlook, hrun⟩ := h
      exact Or.inl ⟨by rw [hrun],
        Or.inr (Or.inl ((lookup_merge_modes_none_iff _).1 hlook))⟩
    · obtain ⟨a0, a1, mode, hargs, hlook, hun, hrun⟩ := h
      exact Or.inl ⟨by rw [hrun], Or.inr (Or.inr (Or.inl ⟨a0, a1, hargs, hun⟩))⟩
    · obtain ⟨a0, a1, mode, db1, hargs, hlook, hun, herr, hrun⟩ := h
      exact Or.inl ⟨by rw [hrun], Or.inr (Or.inr (Or.inr (Or.inl ⟨a0, a1, hargs, herr⟩)))⟩
    · obtain ⟨a0, a1, mode, db1, hargs, hlook, hun, herr, hch, hok, hrun⟩ := h
      exact Or.inl ⟨by rw [hrun],
        Or.inr (Or.inr (Or.inr (Or.inr ⟨a0, a1, mode, db1, hargs, hlook, hun, hch, hok⟩)))⟩
    · obtain ⟨a0, a1, mode, db1, hargs, hlook, hun, herr, hch, hok, hrun⟩ := h
      refine Or.inr ⟨by rw [hrun], ?_⟩
      rintro (hlen | hmode | ⟨b0, b1, hb, hun2⟩ | ⟨b0, b1, hb, herr2⟩ |
        ⟨b0, b1, mode2, db2, hb, hlook2, hun2, hch2, hok2⟩)
      · rw [hargs] at hlen; exact hlen rfl
      · have := (lookup_merge_modes_none_iff p.mergeMode).2 hmode
        rw [hlook] at this; cases this
      · rw [hargs] at hb; cases hb; rw [hun] at hun2; cases hun2
      · rw [hargs] at hb; cases hb; rw [herr] at herr2; cases herr2
      · rw [hargs] at hb; cases hb
        rw [hlook] at hlook2; cases hlook2
        rw [hun] at hun2; cases hun2
        rw [hok] at hok2; cases hok2
    · obtain ⟨a0, a1, mode, db1, hargs, hlook, hun, herr, hch, hrun⟩ := h
      refine Or.inr ⟨by rw [hrun], ?_⟩
      rintro (hlen | hmode | ⟨b0, b1, hb, hun2⟩ | ⟨b0, b1, hb, herr2⟩ |
        ⟨b0, b1, mode2, db2, hb, hlook2, hun2, hch2, hok2⟩)
      · rw [hargs] at hlen; exact hlen rfl
      · have := (lookup_merge_modes_none_iff p.mergeMode).2 hmode
        rw [hlook] at this; cases this
      · rw [hargs] at hb; cases hb; rw [hun] at hun2; cases hun2
      · rw [hargs] at hb; cases hb; rw [herr] at herr2; cases herr2
      · rw [hargs] at hb; cases hb
        rw [hlook] at hlook2; cases hlook2
        rw [hun] at hun2; cases hun2
        rw [hch] at hch2; cases hch2
  refine ⟨?_, ?_, by decide, rfl⟩
  · rcases key with ⟨hs, hf⟩ | ⟨hs, hf⟩
    · exact ⟨fun _ => hf, fun _ => hs⟩
    · exact ⟨fun h => absurd (hs ▸ h) (Ne.symm hFS), fun h => absurd h hf⟩
  · rcases key with ⟨hs, hf⟩ | ⟨hs, hf⟩
    · exact ⟨fun h => absurd (hs ▸ h) hFS, fun h => absurd hf h⟩
    · exact ⟨fun _ => hf, fun _ => hs⟩

theorem xmlErrorText_ne_validModesText (e : String) : xmlErrorText e ≠ validModesText := by
  intro h
  have h2 := congrArg (fun s => s.data.head?) h
  simp [xmlErrorText, validModesText, String.data_append] at h2

theorem saveErrorText_ne_validModesText (e : String) : saveErrorText e ≠ validModesText := by
  intro h
  have h2 := congrArg (fun s => s.data.head?) h
  simp [saveErrorText, validModesText, String.data_append] at h2

/-- C2 (evaluation at the failing input). With two positional arguments and
an empty `--merge-mode` value the mode forced on the merger is
`Group::Default`; for the name "synchronize" it is `Group::Synchronize`, a
different enumerator. -/
theorem empty_mode_forces_Default :
    forcedModes (execute (scripted true false false true) (commandLine "" false)).events
      = [MergeMode.Default] ∧
    forcedModes
        (execute (scripted true false false true) (commandLine "synchronize" false)).events
      = [MergeMode.Synchronize] ∧
    MergeMode.Default ≠ MergeMode.Synchronize := by
  refine ⟨by decide, by decide, by decide⟩

/-- C3. With exactly two positional arguments, a `--merge-mode` value is
accepted exactly when it is one of "", "synchronize", "duplicate",
"keeplocal", "keepremote" (compared as exact strings); each non-empty name
forces the same-named mode on the merger whenever a merger is built; any
other value makes the run consist of writing the list of valid modes to the
error stream and returning `EXIT_FAILURE`, with no mode forced and no merger
built. -/
theorem merge_mode_selection {Db : Type} (c : Collaborators Db) (p : CommandLine)
    (a0 a1 : String) (hargs : p.positionalArguments = [a0, a1]) :
    ((merge_modes.lookup p.mergeMode).isSome = true ↔ p.mergeMode ∈ modeNames) ∧
    (validModesText ∉ stderrWrites (execute c p).events ↔ p.mergeMode ∈ modeNames) ∧
    (p.mergeMode = "synchronize" →
      forcedModes (execute c p).events =
        if (mergerCalls (execute c p).events).isEmpty then [] else [MergeMode.Synchronize]) ∧
    (p.mergeMode = "duplicate" →
      forcedModes (execute c p).events =
        if (mergerCalls (execute c p).events).isEmpty then [] else [MergeMode.Duplicate]) ∧
    (p.mergeMode = "keeplocal" →
      forcedModes (execute c p).events =
        if (mergerCalls (execute c p).events).isEmpty then [] else [MergeMode.KeepLocal]) ∧
    (p.mergeMode = "keepremote" →
      forcedModes (execute c p).events =
        if (mergerCalls (execute c p).events).isEmpty then [] else [MergeMode.KeepRemote]) ∧
    (p.mergeMode ∉ modeNames →
      execute c p = ⟨EXIT_FAILURE, [Event.write Descriptor.STDERR validModesText]⟩ ∧
      forcedModes (execute c p).events = [] ∧ mergerCalls (execute c p).events = []) := by
  have hforced : ∀ mode, merge_modes.lookup p.mergeMode = some mode →
      forcedModes (execute c p).events =
        if (mergerCalls (execute c p).events).isEmpty then [] else [mode] := by
    intro mode hmode
    rcases execute_cases c p with h | h | h | h | h | h | h
    · exact absurd (by rw [hargs]; rfl) h.1
    · obtain ⟨b0, b1, _, hlook, hrun⟩ := h
      rw [hrun]; simp [forcedModes, mergerCalls]
    · obtain ⟨b0, b1, mode2, _, hlook, hun, hrun⟩ := h
      rw [hrun]; simp [forcedModes, mergerCalls]
    · obtain ⟨b0, b1, mode2, db1, _, hlook, hun, herr, hrun⟩ := h
      rw [hrun]; simp [forcedModes, mergerCalls]
    · obtain ⟨b0, b1, mode2, db1, _, hlook, hun, herr, hch, hok, hrun⟩ := h
      rw [hlook] at hmode; cases hmode
      rw [hrun]; simp [forcedModes, mergerCalls, mergeSteps]
    · obtain ⟨b0, b1, mode2, db1, _, hlook, hun, herr, hch, hok, hrun⟩ := h
      rw [hlook] at hmode; cases hmode
      rw [hrun]; cases hq : p.quiet <;> simp [forcedModes, mergerCalls, mergeSteps]
    · obtain ⟨b0, b1, mode2, db1, _, hlook, hun, herr, hch, hrun⟩ := h
      rw [hlook] at hmode; cases hmode
      rw [hrun]; cases hq : p.quiet <;> simp [forcedModes, mergerCalls, mergeSteps]
  have hrej : p.mergeMode ∉ modeNames →
      execute c p = ⟨EXIT_FAILURE, [Event.write Descriptor.STDERR validModesText]⟩ := by
    intro hbad
    have hnone := (lookup_merge_modes_none_iff p.mergeMode).2 hbad
    rcases execute_cases c p with h | h | h | h | h | h | h
    · exact absurd (by rw [hargs]; rfl) h.1
    · exact h.choose_spec.choose_spec.2.2
    · obtain ⟨b0, b1, mode2, _, hlook, _⟩ := h
      rw [hnone] at hlook; cases hlook
    · obtain ⟨b0, b1, mode2, db1, _, hlook, _⟩ := h
      rw [hnone] at hlook; cases hlook
    · obtain ⟨b0, b1, mode2, db1, _, hlook, _⟩ := h
      rw [hnone] at hlook; cases hlook
    · obtain ⟨b0, b1, mode2, db1, _, hlook, _⟩ := h
      rw [hnone] at hlook; cases hlook
    · obtain ⟨b0, b1, mode2, db1, _, hlook, _⟩ := h
      rw [hnone] at hlook; cases hlook
  have hacc : p.mergeMode ∈ modeNames → validModesText ∉ stderrWrites (execute c p).events := by
    intro hgood
    have hsome : merge_modes.lookup p.mergeMode ≠ none :=
      fun hn => (lookup_merge_modes_none_iff p.mergeMode).1 hn hgood
    rcases execute_cases c p with h | h | h | h | h | h | h
    · exact absurd (by rw [hargs]; rfl) h.1
    · obtain ⟨b0, b1, _, hlook, _⟩ := h
      exact absurd hlook hsome
    · obtain ⟨b0, b1, mode2, _, hlook, hun, hrun⟩ := h
      rw [hrun]; simp [stderrWrites]
    · obtain ⟨b0, b1, mode2, db1, _, hlook, hun, herr, hrun⟩ := h
      rw [hrun]
      simpa [stderrWrites] using (xmlErrorText_ne_validModesText _).symm
    · obtain ⟨b0, b1, mode2, db1, _, hlook, hun, herr, hch, hok, hrun⟩ := h
      rw [hrun]
      simpa [stderrWrites, mergeSteps] using (saveErrorText_ne_validModesText _).symm
    · obtain ⟨b0, b1, mode2, db1, _, hlook, hun, herr, hch, hok, hrun⟩ := h
      rw [hrun]; cases hq : p.quiet <;> simp [stderrWrites, mergeSteps]
    · obtain ⟨b0, b1, mode2, db1, _, hlook, hun, herr, hch, hrun⟩ := h
      rw [hrun]; cases hq : p.quiet <;> simp [stderrWrites, mergeSteps]
  refine ⟨?_, ⟨?_, hacc⟩, ?_, ?_, ?_, ?_, ?_⟩
  · have := lookup_merge_modes_none_iff p.mergeMode
    constructor
    · intro hs
      by_contra hbad
      rw [this.2 hbad] at hs
      cases hs
    · intro hgood
      cases hl : merge_modes.lookup p.mergeMode with
      | none => exact absurd hgood (this.1 hl)
      | some m => rfl
  · intro hno
    by_contra hbad
    rw [hrej hbad] at hno
    simp [stderrWrites] at hno
  · intro hm
    exact hforced _ (by rw [hm]; rfl)
  · intro hm
    exact hforced _ (by rw [hm]; rfl)
  · intro hm
    exact hforced _ (by rw [hm]; rfl)
  · intro hm
    exact hforced _ (by rw [hm]; rfl)
  · intro hbad
    have := hrej hbad
    refine ⟨this, ?_, ?_⟩ <;> rw [this] <;> simp [forcedModes, mergerCalls]

/-- C3 at a concrete input: `import --merge-mode Synchronize db.kdbx data.xml`
(wrong case) is rejected, and the theorem applies to it. -/
theorem merge_mode_selection_witness :
    (commandLine "Synchronize" false).positionalArguments = ["db.kdbx", "data.xml"] ∧
    execute (scripted true false true true) (commandLine "Synchronize" false)
      = ⟨EXIT_FAILURE, [Event.write Descriptor.STDERR validModesText]⟩ :=
  ⟨rfl, ((merge_mode_selection (scripted true false true true)
    (commandLine "Synchronize" false) "db.kdbx" "data.xml" rfl).2.2.2.2.2.2 (by decide)).1⟩

/-- C4. In every run `merge()` is called at most once; `save` is called
exactly once, directly after `merge()`, when `merge()` returned true, and
never when `merge()` returned false or was not reached. -/
theorem save_iff_changed {Db : Type} (c : Collaborators Db) (p : CommandLine) :
    (mergeResults (execute c p).events = [] ∨ mergeResults (execute c p).events = [true] ∨
      mergeResults (execute c p).events = [false]) ∧
    (saveCalls (execute c p).events ≠ [] → mergeResults (execute c p).events = [true]) ∧
    (mergeResults (execute c p).events = [true] →
      (saveCalls (execute c p).events).length = 1 ∧
      ∃ pre db path saved post,
        (execute c p).events
          = pre ++ Event.merge true :: Event.save db path true false saved :: post) ∧
    (mergeResults (execute c p).events ≠ [true] → saveCalls (execute c p).events = []) := by
  rcases execute_cases c p with h | h | h | h | h | h | h
  · obtain ⟨_, hrun⟩ := h
    rw [hrun]; simp [mergeResults, saveCalls]
  · obtain ⟨a0, a1, _, _, hrun⟩ := h
    rw [hrun]; simp [mergeResults, saveCalls]
  · obtain ⟨a0, a1, mode, _, _, _, hrun⟩ := h
    rw [hrun]; simp [mergeResults, saveCalls]
  · obtain ⟨a0, a1, mode, db1, _, _, _, _, hrun⟩ := h
    rw [hrun]; simp [mergeResults, saveCalls]
  · obtain ⟨a0, a1, mode, db1, _, _, _, _, hch, hok, hrun⟩ := h
    rw [hrun]
    refine ⟨by simp [mergeResults, mergeSteps, hch], by simp [mergeResults, mergeSteps, hch],
      fun _ => ⟨by simp [saveCalls, mergeSteps], ?_⟩, by simp [mergeResults, mergeSteps, hch]⟩
    exact ⟨[Event.unlockDatabase a0 (!p.noPassword) p.keyFile (unlockOutput p)
          Descriptor.STDERR true, Event.readDatabase a1 false,
        Event.Merger (c.readDatabase a1).db db1, Event.setForcedMergeMode mode],
      _, _, _, _, by simp only [mergeSteps, hch, List.cons_append, List.nil_append]; rfl⟩
  · obtain ⟨a0, a1, mode, db1, _, _, _, _, hch, hok, hrun⟩ := h
    rw [hrun]
    refine ⟨?_, ?_, fun _ => ⟨?_, ?_⟩, ?_⟩
    · cases hq : p.quiet <;> simp [mergeResults, mergeSteps, hch]
    · cases hq : p.quiet <;> simp [mergeResults, mergeSteps, hch]
    · cases hq : p.quiet <;> simp [saveCalls, mergeSteps]
    · exact ⟨[Event.unlockDatabase a0 (!p.noPassword) p.keyFile (unlockOutput p)
          Descriptor.STDERR true, Event.readDatabase a1 false,
        Event.Merger (c.readDatabase a1).db db1, Event.setForcedMergeMode mode],
      _, _, _, _, by simp only [mergeSteps, hch, List.cons_append, List.nil_append]; rfl⟩
    · cases hq : p.quiet <;> simp [mergeResults, mergeSteps, hch]
  · obtain ⟨a0, a1, mode, db1, _, _, _, _, hch, hrun⟩ := h
    rw [hrun]
    cases hq : p.quiet <;> simp [mergeResults, saveCalls, mergeSteps, hch]

/-- C5. On every run that returns `EXIT_SUCCESS`, `merge()` was called once;
without the quiet flag standard output receives exactly one message, the
success message when merge reported a change (then the save succeeded), the
not-modified message when it reported none; with the quiet flag it receives
nothing. The two messages differ. -/
theorem success_message {Db : Type} (c : Collaborators Db) (p : CommandLine)
    (hs : (execute c p).status = EXIT_SUCCESS) :
    (mergeResults (execute c p).events = [true] ∨ mergeResults (execute c p).events = [false]) ∧
    (p.quiet = false → mergeResults (execute c p).events = [true] →
      stdoutWrites (execute c p).events = [successText]) ∧
    (p.quiet = false → mergeResults (execute c p).events = [false] →
      stdoutWrites (execute c p).events = [notModifiedText]) ∧
    (p.quiet = true → stdoutWrites (execute c p).events = []) ∧
    (mergeResults (execute c p).events = [true] →
      ∃ db path, saveCalls (execute c p).events = [(db, path, true)]) ∧
    successText ≠ notModifiedText := by
  have hFS : EXIT_FAILURE ≠ EXIT_SUCCESS := by decide
  rcases execute_cases c p with h | h | h | h | h | h | h
  · obtain ⟨_, hrun⟩ := h
    rw [hrun] at hs; exact absurd hs hFS
  · obtain ⟨a0, a1, _, _, hrun⟩ := h
    rw [hrun] at hs; exact absurd hs hFS
  · obtain ⟨a0, a1, mode, _, _, _, hrun⟩ := h
    rw [hrun] at hs; exact absurd hs hFS
  · obtain ⟨a0, a1, mode, db1, _, _, _, _, hrun⟩ := h
    rw [hrun] at hs; exact absurd hs hFS
  · obtain ⟨a0, a1, mode, db1, _, _, _, _, hch, hok, hrun⟩ := h
    rw [hrun] at hs; exact absurd hs hFS
  · obtain ⟨a0, a1, mode, db1, _, _, _, _, hch, hok, hrun⟩ := h
    rw [hrun]
    refine ⟨?_, ?_, ?_, ?_, ?_, by decide⟩
    · cases hq : p.quiet <;> simp [mergeResults, mergeSteps, hch]
    · intro hq _; simp [stdoutWrites, mergeSteps, hq]
    · intro hq; simp [mergeResults, mergeSteps, hq, hch]
    · intro hq; simp [stdoutWrites, mergeSteps, hq]
    · intro _; cases hq : p.quiet <;> simp [saveCalls, mergeSteps]
  · obtain ⟨a0, a1, mode, db1, _, _, _, _, hch, hrun⟩ := h
    rw [hrun]
    refine ⟨?_, ?_, ?_, ?_, ?_, by decide⟩
    · cases hq : p.quiet <;> simp [mergeResults, mergeSteps, hch]
    · intro hq; simp [mergeResults, mergeSteps, hq, hch]
    · intro hq _; simp [stdoutWrites, mergeSteps, hq]
    · intro hq; simp [stdoutWrites, mergeSteps, hq]
    · cases hq : p.quiet <;> simp [mergeResults, mergeSteps, hch]

/-- C5 at a concrete input: a non-quiet import whose merge changes the
database and whose save succeeds prints the success message only. -/
theorem success_message_witness :
    (execute (scripted true false true true) (commandLine "keeplocal" false)).status
      = EXIT_SUCCESS ∧
    stdoutWrites (execute (scripted true false true true) (commandLine "keeplocal" false)).events
      = [successText] :=
  ⟨by decide,
   (success_message (scripted true false true true) (commandLine "keeplocal" false)
      (by decide)).2.1 rfl (by decide)⟩

/-- C6. With two positional arguments, if unlocking the first path yields no
database or the XML reader reports an error for the second path, the run
returns `EXIT_FAILURE` and contains no merger construction, no forced mode,
no `merge()` call and no `save` call. -/
theorem load_failure_no_merge {Db : Type} (c : Collaborators Db) (p : CommandLine)
    (a0 a1 : String) (hargs : p.positionalArguments = [a0, a1])
    (hfail : c.unlockDatabase a0 (!p.noPassword) p.keyFile (unlockOutput p) Descriptor.STDERR
        = none ∨ (c.readDatabase a1).hasError = true) :
    (execute c p).status = EXIT_FAILURE ∧
    mergerCalls (execute c p).events = [] ∧
    forcedModes (execute c p).events = [] ∧
    mergeResults (execute c p).events = [] ∧
    saveCalls (execute c p).events = [] := by
  rcases execute_cases c p with h | h | h | h | h | h | h
  · obtain ⟨_, hrun⟩ := h
    rw [hrun]; simp [mergerCalls, forcedModes, mergeResults, saveCalls]
  · obtain ⟨b0, b1, _, _, hrun⟩ := h
    rw [hrun]; simp [mergerCalls, forcedModes, mergeResults, saveCalls]
  · obtain ⟨b0, b1, mode, _, _, _, hrun⟩ := h
    rw [hrun]; simp [mergerCalls, forcedModes, mergeResults, saveCalls]
  · obtain ⟨b0, b1, mode, db1, _, _, _, _, hrun⟩ := h
    rw [hrun]; simp [mergerCalls, forcedModes, mergeResults, saveCalls]
  · obtain ⟨b0, b1, mode, db1, hb, _, hun, herr, _⟩ := h
    rw [hargs] at hb; cases hb
    rcases hfail with hf | hf
    · rw [hun] at hf; cases hf
    · rw [herr] at hf; cases hf
  · obtain ⟨b0, b1, mode, db1, hb, _, hun, herr, _⟩ := h
    rw [hargs] at hb; cases hb
    rcases hfail with hf | hf
    · rw [hun] at hf; cases hf
    · rw [herr] at hf; cases hf
  · obtain ⟨b0, b1, mode, db1, hb, _, hun, herr, _⟩ := h
    rw [hargs] at hb; cases hb
    rcases hfail with hf | hf
    · rw [hun] at hf; cases hf
    · rw [herr] at hf; cases hf

/-- C6 at a concrete input: the XML reader reports an error after a
successful unlock. -/
theorem load_failure_no_merge_witness :
    (scripted true true true true).unlockDatabase "db.kdbx" true "" Descriptor.STDOUT
      Descriptor.STDERR = some 1 ∧
    ((scripted true true true true).readDatabase "data.xml").hasError = true ∧
    (execute (scripted true true true true) (commandLine "" false)).status = EXIT_FAILURE ∧
    saveCalls (execute (scripted true true true true) (commandLine "" false)).events = [] :=
  have h := load_failure_no_merge (scripted true true true true) (commandLine "" false)
    "db.kdbx" "data.xml" rfl (Or.inr rfl)
  ⟨rfl, rfl, h.1, h.2.2.2.2⟩

/-- C7, as amended. Every merger of a run is built over (source, target)
with source the database the XML reader returned for the second positional
path and target the database unlocked from the first; a run that calls
`merge()` builds one; every `save` call saves the target as the merger left
it, to the first positional path; the XML path is never saved to when it
differs from the first positional path. -/
theorem merger_over_source_target {Db : Type} (c : Collaborators Db) (p : CommandLine) :
    (∀ st ∈ mergerCalls (execute c p).events, ∃ a0 a1,
      p.positionalArguments = [a0, a1] ∧
      st.1 = (c.readDatabase a1).db ∧
      c.unlockDatabase a0 (!p.noPassword) p.keyFile (unlockOutput p) Descriptor.STDERR
        = some st.2) ∧
    (mergeResults (execute c p).events ≠ [] → (mergerCalls (execute c p).events).length = 1) ∧
    (∀ sv ∈ saveCalls (execute c p).events, ∃ a0 a1 mode db1,
      p.positionalArguments = [a0, a1] ∧
      merge_modes.lookup p.mergeMode = some mode ∧
      c.unlockDatabase a0 (!p.noPassword) p.keyFile (unlockOutput p) Descriptor.STDERR
        = some db1 ∧
      mergerCalls (execute c p).events = [((c.readDatabase a1).db, db1)] ∧
      sv.1 = (c.merge (c.readDatabase a1).db db1 mode).2 ∧
      sv.2.1 = a0) ∧
    (∀ a0 a1, p.positionalArguments = [a0, a1] → a1 ≠ a0 →
      ∀ sv ∈ saveCalls (execute c p).events, sv.2.1 ≠ a1) := by
  rcases execute_cases c p with h | h | h | h | h | h | h
  · obtain ⟨_, hrun⟩ := h
    rw [hrun]; simp [mergerCalls, mergeResults, saveCalls]
  · obtain ⟨a0, a1, _, _, hrun⟩ := h
    rw [hrun]; simp [mergerCalls, mergeResults, saveCalls]
  · obtain ⟨a0, a1, mode, _, _, _, hrun⟩ := h
    rw [hrun]; simp [mergerCalls, mergeResults, saveCalls]
  · obtain ⟨a0, a1, mode, db1, _, _, _, _, hrun⟩ := h
    rw [hrun]; simp [mergerCalls, mergeResults, saveCalls]
  · obtain ⟨a0, a1, mode, db1, hargs, hlook, hun, herr, hch, hok, hrun⟩ := h
    rw [hrun]
    refine ⟨?_, ?_, ?_, ?_⟩
    · intro st hst
      simp [mergerCalls, mergeSteps] at hst
      subst hst
      exact ⟨a0, a1, hargs, rfl, hun⟩
    · intro _; simp [mergerCalls, mergeSteps]
    · intro sv hsv
      simp [saveCalls, mergeSteps] at hsv
      subst hsv
      exact ⟨a0, a1, mode, db1, hargs, hlook, hun, by simp [mergerCalls, mergeSteps], rfl, rfl⟩
    · intro b0 b1 hb hne sv hsv
      rw [hargs] at hb; cases hb
      simp [saveCalls, mergeSteps] at hsv
      subst hsv
      exact fun h => hne h.symm
  · obtain ⟨a0, a1, mode, db1, hargs, hlook, hun, herr, hch, hok, hrun⟩ := h
    rw [hrun]
    refine ⟨?_, ?_, ?_, ?_⟩
    · intro st hst
      cases hq : p.quiet <;> simp [mergerCalls, mergeSteps, hq] at hst <;> subst hst <;>
        exact ⟨a0, a1, hargs, rfl, hun⟩
    · intro _; cases hq : p.quiet <;> simp [mergerCalls, mergeSteps]
    · intro sv hsv
      cases hq : p.quiet <;> simp [saveCalls, mergeSteps, hq] at hsv <;> subst hsv <;>
        exact ⟨a0, a1, mode, db1, hargs, hlook, hun, by simp [mergerCalls, mergeSteps], rfl, rfl⟩
    · intro b0 b1 hb hne sv hsv
      rw [hargs] at hb; cases hb
      cases hq : p.quiet <;> simp [saveCalls, mergeSteps, hq] at hsv <;> subst hsv <;>
        exact fun h => hne h.symm
  · obtain ⟨a0, a1, mode, db1, hargs, hlook, hun, herr, hch, hrun⟩ := h
    rw [hrun]
    refine ⟨?_, ?_, ?_, ?_⟩
    · intro st hst
      cases hq : p.quiet <;> simp [mergerCalls, mergeSteps, hq] at hst <;> subst hst <;>
        exact ⟨a0, a1, hargs, rfl, hun⟩
    · intro _; cases hq : p.quiet <;> simp [mergerCalls, mergeSteps]
    · intro sv hsv
      cases hq : p.quiet <;> simp [saveCalls, mergeSteps, hq] at hsv
    · intro b0 b1 hb hne sv hsv
      cases hq : p.quiet <;> simp [saveCalls, mergeSteps, hq] at hsv

/-- C7 as stated fails when both positional arguments name one path:
`execute` compares the two paths nowhere, the XML reader is handed that path
and the one `save` call writes the merged target to it. -/
theorem same_path_save_counterexample :
    samePathCommandLine.positionalArguments = ["same.xml", "same.xml"] ∧
    readCalls (execute (scripted true false true true) samePathCommandLine).events
      = ["same.xml"] ∧
    saveCalls (execute (scripted true false true true) samePathCommandLine).events
      = [(3, "same.xml", true)] := by
  decide

/-- C9. A run that returns `EXIT_FAILURE` writes nothing to standard output,
whatever the quiet flag; when merge reported a change and the save fails, the
run returns `EXIT_FAILURE`, its only write to the error stream is "Unable to
save database to file : " followed by the save's error message and a line
end, and the success message is not written. -/
theorem failure_prints_no_success {Db : Type} (c : Collaborators Db) (p : CommandLine) :
    ((execute c p).status = EXIT_FAILURE → stdoutWrites (execute c p).events = []) ∧
    (∀ a0 a1 mode db1, p.positionalArguments = [a0, a1] →
      merge_modes.lookup p.mergeMode = some mode →
      c.unlockDatabase a0 (!p.noPassword) p.keyFile (unlockOutput p) Descriptor.STDERR
        = some db1 →
      (c.readDatabase a1).hasError = false →
      (c.merge (c.readDatabase a1).db db1 mode).1 = true →
      (c.save (c.merge (c.readDatabase a1).db db1 mode).2 a0 true false).ok = false →
      (execute c p).status = EXIT_FAILURE ∧
      stderrWrites (execute c p).events =
        ["Unable to save database to file : " ++
          (c.save (c.merge (c.readDatabase a1).db db1 mode).2 a0 true false).errorMessage
          ++ "\n"] ∧
      successText ∉ stdoutWrites (execute c p).events) := by
  have hSF : EXIT_SUCCESS ≠ EXIT_FAILURE := by decide
  rcases execute_cases c p with h | h | h | h | h | h | h
  · obtain ⟨hlen, hrun⟩ := h
    rw [hrun]
    refine ⟨fun _ => by simp [stdoutWrites], ?_⟩
    intro a0 a1 mode db1 hargs
    rw [hargs] at hlen; exact absurd rfl hlen
  · obtain ⟨a0, a1, hargs, hlook, hrun⟩ := h
    rw [hrun]
    refine ⟨fun _ => by simp [stdoutWrites], ?_⟩
    intro b0 b1 mode db1 _ hl
    rw [hlook] at hl; cases hl
  · obtain ⟨a0, a1, mode, hargs, hlook, hun, hrun⟩ := h
    rw [hrun]
    refine ⟨fun _ => by simp [stdoutWrites], ?_⟩
    intro b0 b1 mode2 db1 hb _ hu
    rw [hargs] at hb; cases hb
    rw [hun] at hu; cases hu
  · obtain ⟨a0, a1, mode, db1, hargs, hlook, hun, herr, hrun⟩ := h
    rw [hrun]
    refine ⟨fun _ => by simp [stdoutWrites], ?_⟩
    intro b0 b1 mode2 db2 hb _ _ he
    rw [hargs] at hb; cases hb
    rw [herr] at he; cases he
  · obtain ⟨a0, a1, mode, db1, hargs, hlook, hun, herr, hch, hok, hrun⟩ := h
    rw [hrun]
    refine ⟨fun _ => by simp [stdoutWrites, mergeSteps], ?_⟩
    intro b0 b1 mode2 db2 hb hl hu _ _ _
    rw [hargs] at hb; cases hb
    rw [hlook] at hl; cases hl
    rw [hun] at hu; cases hu
    simp [stdoutWrites, stderrWrites, mergeSteps, saveErrorText]
  · obtain ⟨a0, a1, mode, db1, hargs, hlook, hun, herr, hch, hok, hrun⟩ := h
    rw [hrun]
    refine ⟨fun hs => absurd hs hSF, ?_⟩
    intro b0 b1 mode2 db2 hb hl hu _ _ hk
    rw [hargs] at hb; cases hb
    rw [hlook] at hl; cases hl
    rw [hun] at hu; cases hu
    rw [hok] at hk; cases hk
  · obtain ⟨a0, a1, mode, db1, hargs, hlook, hun, herr, hch, hrun⟩ := h
    rw [hrun]
    refine ⟨fun hs => absurd hs hSF, ?_⟩
    intro b0 b1 mode2 db2 hb hl hu _ hc
    rw [hargs] at hb; cases hb
    rw [hlook] at hl; cases hl
    rw [hun] at hu; cases hu
    rw [hch] at hc; cases hc

/-- C10. If the number of positional arguments is not two, or the mode name is
not recognised, the run returns `EXIT_FAILURE` and calls none of
`unlockDatabase`, the XML reader, the merger or `save`; and in every run that
calls the XML reader, that call directly follows a call of `unlockDatabase`
that returned a database, which is the first event of the run. -/
theorem validation_precedes_collaborators {Db : Type} (c : Collaborators Db)
    (p : CommandLine) :
    ((p.positionalArguments.length ≠ 2 ∨ p.mergeMode ∉ modeNames) →
      (execute c p).status = EXIT_FAILURE ∧
      unlockCalls (execute c p).events = [] ∧
      readCalls (execute c p).events = [] ∧
      mergerCalls (execute c p).events = [] ∧
      forcedModes (execute c p).events = [] ∧
      mergeResults (execute c p).events = [] ∧
      saveCalls (execute c p).events = []) ∧
    (readCalls (execute c p).events ≠ [] →
      ∃ a0 a1 db1 hasError rest,
        p.positionalArguments = [a0, a1] ∧
        c.unlockDatabase a0 (!p.noPassword) p.keyFile (unlockOutput p) Descriptor.STDERR
          = some db1 ∧
        (execute c p).events =
          Event.unlockDatabase a0 (!p.noPassword) p.keyFile (unlockOutput p)
              Descriptor.STDERR true
            :: Event.readDatabase a1 hasError :: rest ∧
        unlockCalls (execute c p).events = [a0] ∧
        readCalls (execute c p).events = [a1]) := by
  rcases execute_cases c p with h | h | h | h | h | h | h
  · obtain ⟨hlen, hrun⟩ := h
    rw [hrun]
    simp [unlockCalls, readCalls, mergerCalls, forcedModes, mergeResults, saveCalls]
  · obtain ⟨a0, a1, hargs, hlook, hrun⟩ := h
    rw [hrun]
    simp [unlockCalls, readCalls, mergerCalls, forcedModes, mergeResults, saveCalls]
  · obtain ⟨a0, a1, mode, hargs, hlook, hun, hrun⟩ := h
    have hgood : p.mergeMode ∈ modeNames := by
      by_contra hbad
      rw [(lookup_merge_modes_none_iff _).2 hbad] at hlook; cases hlook
    rw [hrun]
    refine ⟨?_, by simp [readCalls]⟩
    rintro (hlen | hbad)
    · rw [hargs] at hlen; exact absurd rfl hlen
    · exact absurd hgood hbad
  · obtain ⟨a0, a1, mode, db1, hargs, hlook, hun, herr, hrun⟩ := h
    have hgood : p.mergeMode ∈ modeNames := by
      by_contra hbad
      rw [(lookup_merge_modes_none_iff _).2 hbad] at hlook; cases hlook
    rw [hrun]
    refine ⟨?_, fun _ => ⟨a0, a1, db1, true, _, hargs, hun, rfl, by simp [unlockCalls],
      by simp [readCalls]⟩⟩
    rintro (hlen | hbad)
    · rw [hargs] at hlen; exact absurd rfl hlen
    · exact absurd hgood hbad
  · obtain ⟨a0, a1, mode, db1, hargs, hlook, hun, herr, hch, hok, hrun⟩ := h
    have hgood : p.mergeMode ∈ modeNames := by
      by_contra hbad
      rw [(lookup_merge_modes_none_iff _).2 hbad] at hlook; cases hlook
    rw [hrun]
    refine ⟨?_, fun _ => ⟨a0, a1, db1, false, _, hargs, hun, rfl,
      by simp [unlockCalls, mergeSteps], by simp [readCalls, mergeSteps]⟩⟩
    rintro (hlen | hbad)
    · rw [hargs] at hlen; exact absurd rfl hlen
    · exact absurd hgood hbad
  · obtain ⟨a0, a1, mode, db1, hargs, hlook, hun, herr, hch, hok, hrun⟩ := h
    have hgood : p.mergeMode ∈ modeNames := by
      by_contra hbad
      rw [(lookup_merge_modes_none_iff _).2 hbad] at hlook; cases hlook
    rw [hrun]
    refine ⟨?_, fun _ => ⟨a0, a1, db1, false, _, hargs, hun, rfl, ?_, ?_⟩⟩
    · rintro (hlen | hbad)
      · rw [hargs] at hlen; exact absurd rfl hlen
      · exact absurd hgood hbad
    · cases hq : p.quiet <;> simp [unlockCalls, mergeSteps]
    · cases hq : p.quiet <;> simp [readCalls, mergeSteps]
  · obtain ⟨a0, a1, mode, db1, hargs, hlook, hun, herr, hch, hrun⟩ := h
    have hgood : p.mergeMode ∈ modeNames := by
      by_contra hbad
      rw [(lookup_merge_modes_none_iff _).2 hbad] at hlook; cases hlook
    rw [hrun]
    refine ⟨?_, fun _ => ⟨a0, a1, db1, false, _, hargs, hun, rfl, ?_, ?_⟩⟩
    · rintro (hlen | hbad)
      · rw [hargs] at hlen; exact absurd rfl hlen
      · exact absurd hgood hbad
    · cases hq : p.quiet <;> simp [unlockCalls, mergeSteps]
    · cases hq : p.quiet <;> simp [readCalls, mergeSteps]

/-! ## Part II: when the modelled merge of a Tree into itself changes nothing -/

namespace Reconciler

theorem sameKey_comm (cfg : Config) (a b : Snapshot) : sameKey cfg a b = sameKey cfg b a := by
  unfold sameKey
  rw [Bool.eq_iff_iff]
  simp only [Bool.and_eq_true, beq_iff_eq]
  constructor <;> rintro ⟨h1, h2⟩ <;> exact ⟨h1.symm, h2.symm⟩

theorem foldl_insertKeyed_distinct (cfg : Config) (l acc : List Snapshot)
    (hacc : acc.Pairwise (fun (a b : Snapshot) => sameKey cfg a b = false)) :
    (l.foldl (insertKeyed cfg) acc).Pairwise
      (fun (a b : Snapshot) => sameKey cfg a b = false) := by
  induction l generalizing acc with
  | nil => simpa using hacc
  | cons x xs ih =>
    rw [List.foldl_cons]
    apply ih
    by_cases h : acc.any (sameKey cfg x) = true
    · simpa [insertKeyed, h] using hacc
    · have hnone : ∀ y ∈ acc, sameKey cfg x y = false := by
        intro y hy
        by_contra hc
        exact h (List.any_eq_true.2 ⟨y, hy, by simpa using hc⟩)
      have hstep : insertKeyed cfg acc x = acc ++ [x] := by
        simp only [insertKeyed, h, if_false, Bool.false_eq_true]
      rw [hstep, List.pairwise_append]
      refine ⟨hacc, List.pairwise_singleton _ _, ?_⟩
      intro y hy z hz
      rw [List.mem_singleton] at hz
      subst hz
      rw [sameKey_comm]
      exact hnone y hy

/-- Whatever the two histories, the history merge yields a keyed set, sorted
by timestamp, within the cap. -/
theorem mergeHistory_invariant (cfg : Config) (source target : List Snapshot) :
    historyInvariant cfg (mergeHistory cfg source target) := by
  haveI : IsTotal Snapshot (fun (a b : Snapshot) => a.timestamp ≤ b.timestamp) :=
    ⟨fun a b => Nat.le_total a.timestamp b.timestamp⟩
  haveI : IsTrans Snapshot (fun (a b : Snapshot) => a.timestamp ≤ b.timestamp) :=
    ⟨fun _ _ _ hab hbc => Nat.le_trans hab hbc⟩
  have hd : (unionKeyed cfg target source).Pairwise
      (fun (a b : Snapshot) => sameKey cfg a b = false) :=
    foldl_insertKeyed_distinct cfg _ [] List.Pairwise.nil
  have hperm := List.perm_insertionSort (fun (a b : Snapshot) => a.timestamp ≤ b.timestamp)
    (unionKeyed cfg target source)
  have hd2 : ((unionKeyed cfg target source).insertionSort
      (fun (a b : Snapshot) => a.timestamp ≤ b.timestamp)).Pairwise
      (fun (a b : Snapshot) => sameKey cfg a b = false) :=
    (List.Perm.pairwise_iff (fun {a b} (h : sameKey cfg a b = false) => by
      rw [sameKey_comm]; exact h) hperm).2 hd
  have hs := List.sorted_insertionSort (fun (a b : Snapshot) => a.timestamp ≤ b.timestamp)
    (unionKeyed cfg target source)
  unfold mergeHistory
  refine ⟨hd2.sublist (List.drop_sublist _ _), hs.sublist (List.drop_sublist _ _), ?_⟩
  rw [List.length_drop]
  omega

/-- Scenario of section 8 under `Synchronize`: source holds value "a"
modified at 5, target "bb" modified at 9; target keeps "bb" and its history
gains the entry "a" at 5. -/
theorem scenario_Synchronize :
    observe (merge sampleConfig (singleRecordTree (sampleRecord "a" 5))
        (singleRecordTree (sampleRecord "bb" 9)) Policy.Synchronize)
      = some ([(100, { sampleRecord "bb" 9 with
                  history := [⟨[⟨"Password", "a", true⟩], 5⟩] })],
              [⟨ChangeKind.updated, 1, 9⟩], true) := by
  decide

/-- Scenario of section 8 under `KeepRemote`: target takes the value "a". -/
theorem scenario_KeepRemote :
    observe (merge sampleConfig (singleRecordTree (sampleRecord "a" 5))
        (singleRecordTree (sampleRecord "bb" 9)) Policy.KeepRemote)
      = some ([(100, { sampleRecord "bb" 9 with
                  attributes := [⟨"Password", "a", true⟩], lastModification := 5 })],
              [⟨ChangeKind.updated, 1, 5⟩], true) := by
  decide

/-- Scenario of section 8 under `Duplicate`: target keeps identifier 1 with
"bb" and gains a Record with a new identifier holding "a". -/
theorem scenario_Duplicate :
    observe (merge sampleConfig (singleRecordTree (sampleRecord "a" 5))
        (singleRecordTree (sampleRecord "bb" 9)) Policy.Duplicate)
      = some ([(100, sampleRecord "bb" 9),
               (100, { sampleRecord "a" 5 with identifier := 101 })],
              [⟨ChangeKind.duplicated, 101, 5⟩], true) := by
  decide

/-- The scenario with values of equal length, "a" against "b": the conflict
is detected all the same. -/
theorem scenario_equal_length :
    observe (merge sampleConfig (singleRecordTree (sampleRecord "a" 5))
        (singleRecordTree (sampleRecord "b" 9)) Policy.KeepRemote)
      = some ([(100, { sampleRecord "b" 9 with
                  attributes := [⟨"Password", "a", true⟩], lastModification := 5 })],
              [⟨ChangeKind.updated, 1, 5⟩], true) := by
  decide

/-- The targets the scenario merges leave have the shape of section 3 again,
also when the two histories hold different entries with one timestamp. -/
theorem scenario_targets_WellFormed :
    targetWellFormed sampleConfig (merge sampleConfig (singleRecordTree (sampleRecord "a" 5))
        (singleRecordTree (sampleRecord "bb" 9)) Policy.Synchronize) = true ∧
    targetWellFormed sampleConfig (merge sampleConfig (singleRecordTree (sampleRecord "a" 5))
        (singleRecordTree (sampleRecord "bb" 9)) Policy.Duplicate) = true ∧
    targetWellFormed sampleConfig
      (merge sampleConfig (singleRecordTree (recordWithHistory "a" "x" 5))
        (singleRecordTree (recordWithHistory "a" "y" 5)) Policy.Synchronize) = true ∧
    targetWellFormed sampleConfig
      (merge sampleConfig sampleTree (singleRecordTree (sampleRecord "bb" 9))
        Policy.KeepRemote) = true := by
  refine ⟨by decide, by decide, by decide, by decide⟩

/-- A source-only subtree is cloned into target and its Records added, while
the shared Record is reconciled. -/
theorem scenario_structural :
    (observe (merge sampleConfig sampleTree (singleRecordTree (sampleRecord "bb" 9))
        Policy.Synchronize)).map (fun o => (o.1.map (fun e => (e.1, e.2.identifier)), o.2.1))
      = some ([(100, 1), (102, 3)],
              [⟨ChangeKind.added, 101, 2⟩, ⟨ChangeKind.added, 102, 3⟩,
               ⟨ChangeKind.added, 103, 1⟩, ⟨ChangeKind.updated, 1, 9⟩,
               ⟨ChangeKind.added, 3, 4⟩]) := by
  decide

end Reconciler

end KeePassXC
